import Mathlib

/-!
Verification of the filter-and-projection engine of the analytics dashboard
(`src/app.py`).  The dashboard loads two dataframes (`people`, `sessions`)
and filters them by the UI state:

* people  : user-type select, minimum-sessions slider, country select,
            substring search over fullName/username/email (lines 95-113);
* sessions: five boolean event checkboxes, country select, inclusive
            date-range bounds on the calendar date of start_timestamp
            (lines 198-219);

followed by a column projection (`df[selected_columns]`, lines 132-140 and
238-246).

Shallow embedding conventions:

* a dataframe is a `List` of typed rows, in order; a nullable cell is an
  `Option`;
* pandas comparisons against null (`NaN`/`NaT`/`None`) yield `False` in a
  boolean mask, so every mask on an `Option` cell maps `none` to `false`;
* `pandas.Series.str.contains(term, case=False, na=False)` interprets the
  term as a Python regular expression with `re.IGNORECASE`.  We embed the
  fragment of the regular-expression language consisting of character
  literals and the `.` wildcard (`RChar`, `reSearch`); `case=False` is
  modelled by lower-casing both the pattern and the subject;
* the dynamic (string-keyed) nature of dataframe column access, needed for
  the missing-column and projection claims, is modelled separately by
  `DynTable` with `Except`-valued access.
-/

/-- A row of the `people` dataframe, restricted to the columns the filter
block of `src/app.py` (lines 95-113) reads.  `Option` marks nullable
cells. -/
structure PersonRow where
  fullName : Option String
  username : Option String
  email : Option String
  total_sessions : Option Int
  businessUser : Option Bool
  country : Option String
deriving DecidableEq, Repr

/-- One character-matcher of the embedded regular-expression fragment of
Python `re` (as invoked by `Series.str.contains` with its default
`regex=True`): a literal character or the `.` wildcard.  Other
metacharacters of `re` are outside the modelled fragment. -/
inductive RChar
  | lit (c : Char)
  | dot
deriving DecidableEq, Repr

def rcharMatch : RChar → Char → Bool
  | RChar.lit c, d => c == d
  | RChar.dot, _ => true

/-- Parse a search term into the embedded regex fragment: `.` becomes the
wildcard, every other character a literal. -/
def parseRe (s : List Char) : List RChar :=
  s.map (fun c => if c == '.' then RChar.dot else RChar.lit c)

/-- Does the pattern match a prefix of `s`?  (Python `re.match` at one
position.) -/
def reMatchHere : List RChar → List Char → Bool
  | [], _ => true
  | _ :: _, [] => false
  | p :: ps, c :: cs => rcharMatch p c && reMatchHere ps cs

/-- Does the pattern match anywhere in `s`?  (Python `re.search`, which is
what `Series.str.contains` performs.) -/
def reSearch (ps : List RChar) : List Char → Bool
  | [] => reMatchHere ps []
  | c :: cs => reMatchHere ps (c :: cs) || reSearch ps cs

/-- Case folding used for `case=False` / `re.IGNORECASE`: character-wise
lower-casing of the string's characters. -/
def pyLower (s : String) : List Char :=
  s.data.map Char.toLower

/-- `Series.str.contains(term, case=False, na=False)` on one cell: a null
cell yields `false` (`na=False`); otherwise the lower-cased term, read as a
regular expression, is searched in the lower-cased cell. -/
def pyContains (term : String) (v : Option String) : Bool :=
  match v with
  | none => false
  | some s => reSearch (parseRe (pyLower term)) (pyLower s)

/-- The search mask of lines 108-112: OR of `str.contains` over
`fullName`, `username`, `email`. -/
def searchMask (term : String) (r : PersonRow) : Bool :=
  pyContains term r.fullName || pyContains term r.username || pyContains term r.email

/-- `total_sessions >= min_sessions` (line 102): a null cell fails the
comparison, as a pandas `>=` mask on `NaN` is `False`. -/
def geMask (threshold : Int) (v : Option Int) : Bool :=
  match v with
  | none => false
  | some n => decide (threshold ≤ n)

/-- The UI state the people filter block reads: user-type select,
minimum-sessions slider, country select, search box. -/
structure PeopleConfig where
  user_type : String
  min_sessions : Int
  selected_country : String
  search_term : String
deriving Repr

/-- The people filter block of `src/app.py` lines 95-113, step for step:
conditional business-user mask, unconditional minimum-sessions mask,
conditional country equality mask, conditional search mask. -/
def filterPeople (cfg : PeopleConfig) (T : List PersonRow) : List PersonRow :=
  let t1 :=
    if cfg.user_type = "Business Users" then
      T.filter (fun r => r.businessUser == some true)
    else if cfg.user_type = "Non-Business Users" then
      T.filter (fun r => r.businessUser == some false)
    else T
  let t2 := t1.filter (fun r => geMask cfg.min_sessions r.total_sessions)
  let t3 :=
    if cfg.selected_country ≠ "All" then
      t2.filter (fun r => r.country == some cfg.selected_country)
    else t2
  let t4 :=
    if cfg.search_term ≠ "" then t3.filter (searchMask cfg.search_term) else t3
  t4

/-- The country dropdown options of line 88:
`["All"] + sorted(people_df['country'].dropna().unique().tolist())`.
`dropna` is `filterMap`, `unique` keeps first occurrences, `sorted` sorts
ascending. -/
def uniqueFirstAux (seen : List String) : List String → List String
  | [] => []
  | a :: l => if a ∈ seen then uniqueFirstAux seen l else a :: uniqueFirstAux (a :: seen) l

def uniqueFirst (l : List String) : List String :=
  uniqueFirstAux [] l

/-- Code-point lexicographic comparison of character lists: the order
Python's `sorted` uses on strings. -/
def strLeb : List Char → List Char → Bool
  | [], _ => true
  | _ :: _, [] => false
  | a :: as, b :: bs =>
    if a.toNat < b.toNat then true
    else if b.toNat < a.toNat then false
    else strLeb as bs

/-- `a ≤ b` in Python's string order. -/
def strLe (a b : String) : Prop :=
  strLeb a.data b.data = true

instance : DecidableRel strLe :=
  fun a b => (instDecidableEqBool (strLeb a.data b.data) true : Decidable (strLe a b))

theorem strLeb_total : ∀ (as bs : List Char), strLeb as bs = true ∨ strLeb bs as = true := by
  intro as
  induction as with
  | nil => intro bs; left; rfl
  | cons a as ih =>
    intro bs
    cases bs with
    | nil => right; rfl
    | cons b bs =>
      rcases Nat.lt_trichotomy a.toNat b.toNat with h | h | h
      · left; simp [strLeb, h]
      · rcases ih bs with h2 | h2
        · left; simp [strLeb, h, h2, Nat.lt_irrefl]
        · right; simp [strLeb, h, h2, Nat.lt_irrefl]
      · right; simp [strLeb, h]

theorem strLeb_trans : ∀ (as bs cs : List Char), strLeb as bs = true → strLeb bs cs = true →
    strLeb as cs = true := by
  intro as
  induction as with
  | nil => intro bs cs _ _; rfl
  | cons a as ih =>
    intro bs cs h1 h2
    cases bs with
    | nil => simp [strLeb] at h1
    | cons b bs =>
      cases cs with
      | nil => simp [strLeb] at h2
      | cons c cs =>
        by_cases hab : a.toNat < b.toNat <;> by_cases hba : b.toNat < a.toNat <;>
          by_cases hbc : b.toNat < c.toNat <;> by_cases hcb : c.toNat < b.toNat <;>
            by_cases hac : a.toNat < c.toNat <;> by_cases hca : c.toNat < a.toNat <;>
              simp [strLeb, hab, hba, hbc, hcb, hac, hca] at h1 h2 ⊢ <;>
                first
                  | (exact ih bs cs h1 h2)
                  | omega

instance : IsTotal String strLe :=
  ⟨fun a b => strLeb_total a.data b.data⟩

instance : IsTrans String strLe :=
  ⟨fun a b c => strLeb_trans a.data b.data c.data⟩

def countries (T : List PersonRow) : List String :=
  "All" :: List.insertionSort strLe (uniqueFirst (T.filterMap (fun r => r.country)))

/-- A timestamp, split into its calendar-date portion (as an abstract day
number, ordered as dates are) and a time of day; `.dt.date` reads the
`date` field. -/
structure Timestamp where
  date : Int
  tod : Nat
deriving DecidableEq, Repr

/-- The state of the date-range widget as the filter block of lines
213-219 observes it: the variable may be absent from `locals()` (widget
never rendered), may hold a 1-tuple (selection in progress, `len != 2`),
or a 2-tuple of bounds. -/
inductive DateSel
  | absent
  | half (d : Int)
  | full (startDate endDate : Int)
deriving DecidableEq, Repr

/-- A row of the `sessions` dataframe, restricted to the columns the
filter block of lines 198-219 reads. -/
structure SessionRow where
  created_event : Option Bool
  viewed_event : Option Bool
  joined_event : Option Bool
  completed_quiz : Option Bool
  visited_discover : Option Bool
  country : Option String
  start_timestamp : Option Timestamp
deriving DecidableEq, Repr

/-- `column == True` (lines 201-209): only a non-null `true` cell passes;
`None`/`NaN` compared with `True` is `False`. -/
def boolMask (v : Option Bool) : Bool :=
  v == some true

/-- The date mask of lines 215-218, by widget state: with both bounds the
calendar date of the timestamp must lie in `[startDate, endDate]`, a
null (`NaT`) timestamp failing both comparisons; with fewer than two
bounds no mask is built. -/
def dateMask (sel : DateSel) (v : Option Timestamp) : Bool :=
  match sel with
  | DateSel.absent => true
  | DateSel.half _ => true
  | DateSel.full s e =>
    match v with
    | none => false
    | some ts => decide (s ≤ ts.date) && decide (ts.date ≤ e)

/-- The UI state the sessions filter block reads. -/
structure SessionsConfig where
  show_created : Bool
  show_viewed : Bool
  show_joined : Bool
  show_quiz : Bool
  show_discovered : Bool
  selected_session_country : String
  date_range : DateSel
deriving Repr

/-- The sessions filter block of `src/app.py` lines 198-219, step for
step: five conditional checkbox masks, conditional country equality mask,
and the date-range mask applied only when the widget variable exists and
holds two bounds. -/
def filterSessions (cfg : SessionsConfig) (T : List SessionRow) : List SessionRow :=
  let t1 := if cfg.show_created then T.filter (fun r => boolMask r.created_event) else T
  let t2 := if cfg.show_viewed then t1.filter (fun r => boolMask r.viewed_event) else t1
  let t3 := if cfg.show_joined then t2.filter (fun r => boolMask r.joined_event) else t2
  let t4 := if cfg.show_quiz then t3.filter (fun r => boolMask r.completed_quiz) else t3
  let t5 := if cfg.show_discovered then t4.filter (fun r => boolMask r.visited_discover) else t4
  let t6 :=
    if cfg.selected_session_country ≠ "All" then
      t5.filter (fun r => r.country == some cfg.selected_session_country)
    else t5
  let t7 :=
    match cfg.date_range with
    | DateSel.full s e => t6.filter (fun r => dateMask (DateSel.full s e) r.start_timestamp)
    | _ => t6
  t7

/-- A cell of the dynamic (string-keyed) dataframe model. -/
inductive Value
  | null
  | str (s : String)
  | bool (b : Bool)
  | int (n : Int)
deriving DecidableEq, Repr

/-- The dynamic dataframe model: a header of column names and rows of
cells aligned with the header.  This is the view of a dataframe that the
claims about column lookup need: columns are resolved by name at run
time. -/
structure DynTable where
  header : List String
  rows : List (List Value)
deriving DecidableEq, Repr

/-- `df[c]` for a column name: a `KeyError` when the name is absent from
the schema, the column's cells otherwise. -/
def getCol (t : DynTable) (c : String) : Except String (List Value) :=
  match t.header.findIdx? (fun h => h == c) with
  | none => Except.error ("KeyError: " ++ c)
  | some i => Except.ok (t.rows.map (fun r => r.getD i Value.null))

/-- `df[df[c] <mask>]`: build a boolean mask from column `c` and keep the
rows where it holds.  Column lookup happens first, so an absent column
raises before any row is inspected. -/
def filterByCol (t : DynTable) (c : String) (p : Value → Bool) : Except String DynTable :=
  (getCol t c).map (fun col =>
    ⟨t.header, ((t.rows.zip col).filter (fun rv => p rv.2)).map (fun rv => rv.1)⟩)

/-- `df[c]` for one row: `KeyError` when the name is absent. -/
def getCell (header : List String) (row : List Value) (c : String) : Except String Value :=
  match header.findIdx? (fun h => h == c) with
  | none => Except.error ("KeyError: " ++ c)
  | some i => Except.ok (row.getD i Value.null)

/-- `df[selected_columns]` (lines 134 and 240): the view with exactly the
chosen columns in the chosen order, same rows in the same order. -/
def project (t : DynTable) (cols : List String) : Except String DynTable := do
  let rows ← t.rows.mapM (fun r => cols.mapM (getCell t.header r))
  pure ⟨cols, rows⟩

/-- Total variant of cell lookup, meaningful when the column exists; used
to state what `project` returns on a valid column list. -/
def cellValue (header : List String) (row : List Value) (c : String) : Value :=
  match header.findIdx? (fun h => h == c) with
  | none => Value.null
  | some i => row.getD i Value.null

/-! ### Derived row predicates

Each filter block is a sequence of conditional `filter` steps.  The
following per-row predicates package one step each, with the inactive
state contributing `true`; we prove below that the blocks equal a single
`filter` by the conjunction of these predicates. -/

/-- The user-type step of lines 97-100 as a row predicate. -/
def userTypeMask (ut : String) (v : Option Bool) : Bool :=
  if ut = "Business Users" then v == some true
  else if ut = "Non-Business Users" then v == some false
  else true

/-- The country step of lines 104-105 / 210-211 as a row predicate;
the sentinel `"All"` imposes no constraint. -/
def countryMask (sel : String) (v : Option String) : Bool :=
  if sel = "All" then true else v == some sel

/-- The search step of lines 107-113 as a row predicate; an empty term
(falsy in `if search_term:`) imposes no constraint. -/
def searchGate (term : String) (r : PersonRow) : Bool :=
  if term = "" then true else searchMask term r

/-- Conjunction of all four people-filter steps. -/
def peopleRowPred (cfg : PeopleConfig) (r : PersonRow) : Bool :=
  userTypeMask cfg.user_type r.businessUser &&
  geMask cfg.min_sessions r.total_sessions &&
  countryMask cfg.selected_country r.country &&
  searchGate cfg.search_term r

/-- One checkbox step of lines 200-209 as a row predicate; an unchecked
box imposes no constraint. -/
def checkboxGate (b : Bool) (v : Option Bool) : Bool :=
  if b then boolMask v else true

/-- Conjunction of all seven sessions-filter steps. -/
def sessionRowPred (cfg : SessionsConfig) (r : SessionRow) : Bool :=
  checkboxGate cfg.show_created r.created_event &&
  checkboxGate cfg.show_viewed r.viewed_event &&
  checkboxGate cfg.show_joined r.joined_event &&
  checkboxGate cfg.show_quiz r.completed_quiz &&
  checkboxGate cfg.show_discovered r.visited_discover &&
  countryMask cfg.selected_session_country r.country &&
  dateMask cfg.date_range r.start_timestamp

/-! ### Sequential filter chains

`chainFilter` is the abstract shape both blocks share: a left-to-right
sequence of `filter` steps.  Both blocks are proved equal to a chain over
an explicit predicate list, and every chain equals one `filter` by the
conjunction of its predicates — which gives order independence, since a
conjunction does not depend on the order of its conjuncts. -/

def chainFilter {α : Type} (ps : List (α → Bool)) (T : List α) : List α :=
  ps.foldl (fun t p => t.filter p) T

theorem chainFilter_append {α : Type} (ps qs : List (α → Bool)) (T : List α) :
    chainFilter (ps ++ qs) T = chainFilter qs (chainFilter ps T) := by
  simp [chainFilter, List.foldl_append]

/-- The predicate list contributed by one conditional filter step: a
one-element list when the condition holds, none otherwise. -/
def condList {α : Type} (p : Prop) [Decidable p] (g : α → Bool) : List (α → Bool) :=
  if p then [g] else []

theorem chainFilter_condList {α : Type} (p : Prop) [Decidable p] (g : α → Bool)
    (T : List α) :
    chainFilter (condList p g) T = if p then T.filter g else T := by
  by_cases h : p <;> simp [h, condList, chainFilter]

theorem chainFilter_eq_filter_all {α : Type} (ps : List (α → Bool)) (T : List α) :
    chainFilter ps T = T.filter (fun r => ps.all (fun p => p r)) := by
  induction ps generalizing T with
  | nil => simp [chainFilter]
  | cons p ps ih =>
    have h1 : chainFilter (p :: ps) T = chainFilter ps (T.filter p) := rfl
    rw [h1, ih, List.filter_filter]
    exact List.filter_congr (fun a _ => Bool.and_comm _ _)

theorem all_condList {α : Type} (p : Prop) [Decidable p] (g : α → Bool)
    (f : (α → Bool) → Bool) :
    (condList p g).all f = if p then f g else true := by
  by_cases h : p <;> simp [h, condList]

theorem perm_all_eq {α : Type} {l l' : List (α → Bool)} (h : l.Perm l') (r : α) :
    l.all (fun p => p r) = l'.all (fun p => p r) := by
  induction h with
  | nil => rfl
  | cons x _ ih => simp [List.all_cons, ih]
  | swap x y l => simp [List.all_cons, Bool.and_left_comm]
  | trans _ _ ih1 ih2 => rw [ih1, ih2]

theorem chainFilter_perm {α : Type} {ps qs : List (α → Bool)} (h : ps.Perm qs)
    (T : List α) : chainFilter ps T = chainFilter qs T := by
  rw [chainFilter_eq_filter_all, chainFilter_eq_filter_all]
  exact List.filter_congr (fun a _ => perm_all_eq h a)

/-- The predicate list contributed by the three-way user-type select of
lines 97-100. -/
def userTypePredList (ut : String) : List (PersonRow → Bool) :=
  if ut = "Business Users" then [fun r => r.businessUser == some true]
  else if ut = "Non-Business Users" then [fun r => r.businessUser == some false]
  else []

/-- The predicate list contributed by the date-range step of lines
213-219: empty unless the widget variable exists and holds two bounds. -/
def datePredList (dr : DateSel) : List (SessionRow → Bool) :=
  match dr with
  | DateSel.full s e => [fun r => dateMask (DateSel.full s e) r.start_timestamp]
  | DateSel.absent => []
  | DateSel.half _ => []

/-- The people filter block as a list of predicates: inactive steps
contribute no entry, exactly as the `if` statements of lines 97-113 skip
the corresponding `filter`. -/
def peoplePredList (cfg : PeopleConfig) : List (PersonRow → Bool) :=
  userTypePredList cfg.user_type ++
  ([fun r => geMask cfg.min_sessions r.total_sessions] ++
  (condList (cfg.selected_country ≠ "All")
      (fun r => r.country == some cfg.selected_country) ++
  condList (cfg.search_term ≠ "") (searchMask cfg.search_term)))

/-- The sessions filter block as a list of predicates. -/
def sessionsPredList (cfg : SessionsConfig) : List (SessionRow → Bool) :=
  condList (cfg.show_created = true) (fun r => boolMask r.created_event) ++
  (condList (cfg.show_viewed = true) (fun r => boolMask r.viewed_event) ++
  (condList (cfg.show_joined = true) (fun r => boolMask r.joined_event) ++
  (condList (cfg.show_quiz = true) (fun r => boolMask r.completed_quiz) ++
  (condList (cfg.show_discovered = true) (fun r => boolMask r.visited_discover) ++
  (condList (cfg.selected_session_country ≠ "All")
      (fun r => r.country == some cfg.selected_session_country) ++
  datePredList cfg.date_range)))))

theorem filterPeople_eq_chain (cfg : PeopleConfig) (T : List PersonRow) :
    filterPeople cfg T = chainFilter (peoplePredList cfg) T := by
  unfold filterPeople peoplePredList userTypePredList
  rw [chainFilter_append, chainFilter_append, chainFilter_append, chainFilter_condList,
    chainFilter_condList]
  by_cases h1 : cfg.user_type = "Business Users" <;>
    by_cases h2 : cfg.user_type = "Non-Business Users" <;>
      simp [h1, h2, chainFilter]

theorem filterSessions_eq_chain (cfg : SessionsConfig) (T : List SessionRow) :
    filterSessions cfg T = chainFilter (sessionsPredList cfg) T := by
  unfold filterSessions sessionsPredList datePredList
  rw [chainFilter_append, chainFilter_append, chainFilter_append, chainFilter_append,
    chainFilter_append, chainFilter_append]
  rw [chainFilter_condList, chainFilter_condList, chainFilter_condList,
    chainFilter_condList, chainFilter_condList, chainFilter_condList]
  cases cfg.date_range <;> rfl

/-- Per-row conjunction of the people predicate list equals
`peopleRowPred`. -/
theorem peoplePredList_all (cfg : PeopleConfig) (r : PersonRow) :
    (peoplePredList cfg).all (fun p => p r) = peopleRowPred cfg r := by
  unfold peoplePredList peopleRowPred userTypePredList userTypeMask countryMask searchGate
    condList
  by_cases h1 : cfg.user_type = "Business Users" <;>
    by_cases h2 : cfg.user_type = "Non-Business Users" <;>
      by_cases h3 : cfg.selected_country = "All" <;>
        by_cases h4 : cfg.search_term = "" <;>
          simp [h1, h2, h3, h4, Bool.and_assoc]

/-- Per-row conjunction of the sessions predicate list equals
`sessionRowPred`. -/
theorem sessionsPredList_all (cfg : SessionsConfig) (r : SessionRow) :
    (sessionsPredList cfg).all (fun p => p r) = sessionRowPred cfg r := by
  unfold sessionsPredList sessionRowPred datePredList checkboxGate countryMask
  simp only [List.all_append, all_condList]
  by_cases h6 : cfg.selected_session_country = "All" <;>
    cases hd : cfg.date_range <;>
      simp [h6, dateMask, Bool.and_assoc]

/-- The people filter block collapses to a single `filter` by the
conjunction of its four step predicates. -/
theorem filterPeople_eq_filter (cfg : PeopleConfig) (T : List PersonRow) :
    filterPeople cfg T = T.filter (peopleRowPred cfg) := by
  rw [filterPeople_eq_chain, chainFilter_eq_filter_all]
  exact List.filter_congr (fun a _ => peoplePredList_all cfg a)

/-- The sessions filter block collapses to a single `filter` by the
conjunction of its seven step predicates. -/
theorem filterSessions_eq_filter (cfg : SessionsConfig) (T : List SessionRow) :
    filterSessions cfg T = T.filter (sessionRowPred cfg) := by
  rw [filterSessions_eq_chain, chainFilter_eq_filter_all]
  exact List.filter_congr (fun a _ => sessionsPredList_all cfg a)

/-! ### Literal-substring reading of the search, and the regex bridge

The spec describes the search as literal substring containment.  The code
calls `str.contains` with its default `regex=True`, so the term is a
regular expression.  On terms free of regex metacharacters the two
readings agree; `specLiteralSearch` below is the spec's wording, to be
compared with `searchMask` from the code. -/

/-- The metacharacters of the Python regular-expression language. -/
def reMetaChars : String := ".^$*+?\x7b\x7d[]\\|()"

def reMeta (c : Char) : Bool := reMetaChars.data.contains c

/-- Spec wording for one cell of the search: the case-folded term occurs
in the case-folded cell as a literal substring; a null cell never
matches. -/
def specLiteralContains (term : String) (v : Option String) : Bool :=
  match v with
  | none => false
  | some s => decide (pyLower term <:+: pyLower s)

/-- Spec wording for the whole search predicate: OR of literal substring
containment over the three designated columns. -/
def specLiteralSearch (term : String) (r : PersonRow) : Bool :=
  specLiteralContains term r.fullName || specLiteralContains term r.username ||
    specLiteralContains term r.email

theorem reMatchHere_lit (pat : List Char) : ∀ (s : List Char),
    (reMatchHere (pat.map RChar.lit) s = true ↔ pat <+: s) := by
  induction pat with
  | nil => intro s; simp [reMatchHere]
  | cons c cs ih =>
    intro s
    cases s with
    | nil => simp [reMatchHere]
    | cons d ds => simp [reMatchHere, rcharMatch, ih, List.cons_prefix_cons]

theorem reSearch_lit (pat : List Char) : ∀ (s : List Char),
    (reSearch (pat.map RChar.lit) s = true ↔ pat <:+: s) := by
  intro s
  induction s with
  | nil =>
    rw [show reSearch (pat.map RChar.lit) [] = reMatchHere (pat.map RChar.lit) [] from rfl,
      reMatchHere_lit]
    simp
  | cons c cs ih =>
    rw [show reSearch (pat.map RChar.lit) (c :: cs) =
        (reMatchHere (pat.map RChar.lit) (c :: cs) || reSearch (pat.map RChar.lit) cs)
      from rfl]
    rw [Bool.or_eq_true, reMatchHere_lit, ih, List.infix_cons_iff]

theorem noMeta_beq_dot_eq_false {c : Char} (h : reMeta c = false) : (c == '.') = false := by
  cases hq : c == '.' with
  | false => rfl
  | true =>
    have hc : c = '.' := eq_of_beq hq
    subst hc
    rw [show reMeta '.' = true from by decide] at h
    cases h

theorem parseRe_noMeta (pat : List Char) (h : ∀ c ∈ pat, reMeta c = false) :
    parseRe pat = pat.map RChar.lit := by
  unfold parseRe
  refine List.map_congr_left (fun c hc => ?_)
  rw [noMeta_beq_dot_eq_false (h c hc)]
  simp

/-- On a metacharacter-free term, the code's `str.contains` is exactly
literal substring containment. -/
theorem pyContains_eq_literal (term : String) (v : Option String)
    (h : ∀ c ∈ pyLower term, reMeta c = false) :
    pyContains term v = specLiteralContains term v := by
  cases v with
  | none => rfl
  | some s =>
    unfold pyContains specLiteralContains
    rw [parseRe_noMeta _ h, Bool.eq_iff_iff, reSearch_lit]
    simp

/-! ### Evaluation of the all-inactive configuration -/

/-- The all-inactive people UI state: default select values, slider at
its minimum 0, empty search box. -/
def inactivePeopleCfg : PeopleConfig := ⟨"All Users", 0, "All", ""⟩

/-- The all-inactive sessions UI state: no checkbox checked, country
sentinel, date-range widget variable absent. -/
def inactiveSessionsCfg : SessionsConfig := ⟨false, false, false, false, false, "All", DateSel.absent⟩

/-- Under the all-inactive people configuration the only live constraint
is the unconditionally applied minimum-sessions mask at threshold 0. -/
theorem peopleRowPred_inactive (r : PersonRow) :
    peopleRowPred inactivePeopleCfg r = geMask 0 r.total_sessions := by
  unfold peopleRowPred inactivePeopleCfg userTypeMask countryMask searchGate
  rw [if_neg (by decide), if_neg (by decide), if_pos (by decide), if_pos (by decide)]
  simp

/-- Under the all-inactive sessions configuration every step passes every
row. -/
theorem sessionRowPred_inactive (r : SessionRow) :
    sessionRowPred inactiveSessionsCfg r = true := by
  unfold sessionRowPred inactiveSessionsCfg checkboxGate countryMask dateMask
  rw [if_neg (by decide), if_neg (by decide), if_neg (by decide), if_neg (by decide),
    if_neg (by decide), if_pos (by decide)]
  simp

/-! ### Dynamic-model lemmas: missing columns and projection -/

theorem getCol_missing (t : DynTable) (c : String) (h : c ∉ t.header) :
    getCol t c = Except.error ("KeyError: " ++ c) := by
  unfold getCol
  rw [List.findIdx?_eq_none_iff.mpr]
  intro x hx
  exact beq_eq_false_iff_ne.mpr (fun hxc => h (hxc ▸ hx))

theorem getCell_mem (header : List String) (row : List Value) {c : String}
    (h : c ∈ header) :
    getCell header row c = Except.ok (cellValue header row c) := by
  unfold getCell cellValue
  cases hf : header.findIdx? (fun x => x == c) with
  | none =>
    exfalso
    have := List.findIdx?_eq_none_iff.mp hf c h
    simp at this
  | some i => rfl

theorem mapM_getCell (header : List String) (row : List Value) (cols : List String)
    (h : ∀ c ∈ cols, c ∈ header) :
    cols.mapM (getCell header row) = Except.ok (cols.map (cellValue header row)) := by
  induction cols with
  | nil => rfl
  | cons c cs ih =>
    rw [List.mapM_cons, getCell_mem header row (h c (by simp)),
      ih (fun x hx => h x (by simp [hx]))]
    rfl

/-- On a valid (schema-subset) column list, projection succeeds and
returns the header `cols` with every input row restricted to `cols`, in
order. -/
theorem project_ok (t : DynTable) (cols : List String)
    (h : ∀ c ∈ cols, c ∈ t.header) :
    project t cols =
      Except.ok ⟨cols, t.rows.map (fun r => cols.map (cellValue t.header r))⟩ := by
  unfold project
  have hrows : ∀ (rs : List (List Value)),
      rs.mapM (fun r => cols.mapM (getCell t.header r)) =
        Except.ok (rs.map (fun r => cols.map (cellValue t.header r))) := by
    intro rs
    induction rs with
    | nil => rfl
    | cons r rs ih => rw [List.mapM_cons, mapM_getCell t.header r cols h, ih]; rfl
  rw [hrows]
  rfl

/-! ### Country dropdown options -/

theorem mem_uniqueFirstAux (x : String) : ∀ (l seen : List String),
    (x ∈ uniqueFirstAux seen l ↔ x ∈ l ∧ x ∉ seen) := by
  intro l
  induction l with
  | nil => intro seen; simp [uniqueFirstAux]
  | cons a l ih =>
    intro seen
    by_cases ha : a ∈ seen
    · rw [uniqueFirstAux, if_pos ha, ih]
      constructor
      · rintro ⟨hl, hs⟩; exact ⟨List.mem_cons_of_mem _ hl, hs⟩
      · rintro ⟨hl, hs⟩
        rcases List.mem_cons.mp hl with rfl | hl
        · exact absurd ha hs
        · exact ⟨hl, hs⟩
    · rw [uniqueFirstAux, if_neg ha]
      by_cases hx : x = a
      · subst hx; simp [ha]
      · simp [List.mem_cons, hx, ih]

theorem mem_uniqueFirst {x : String} {l : List String} : x ∈ uniqueFirst l ↔ x ∈ l := by
  rw [uniqueFirst, mem_uniqueFirstAux]
  simp

theorem nodup_uniqueFirstAux : ∀ (l seen : List String), (uniqueFirstAux seen l).Nodup := by
  intro l
  induction l with
  | nil => intro seen; simp [uniqueFirstAux]
  | cons a l ih =>
    intro seen
    by_cases ha : a ∈ seen
    · rw [uniqueFirstAux, if_pos ha]; exact ih seen
    · rw [uniqueFirstAux, if_neg ha]
      refine List.nodup_cons.mpr ⟨?_, ih _⟩
      intro hmem
      exact ((mem_uniqueFirstAux a _ _).mp hmem).2 (List.mem_cons_self a seen)

theorem nodup_uniqueFirst (l : List String) : (uniqueFirst l).Nodup :=
  nodup_uniqueFirstAux l []

/-! ### Concrete data used by witnesses and counterexamples -/

def row3 : PersonRow :=
  ⟨some "Carol", some "carol", some "carol@x.io", some 3, some false, some "US"⟩

def row5 : PersonRow :=
  ⟨some "Dave", some "dave", some "dave@x.io", some 5, some true, some "DE"⟩

def row7 : PersonRow :=
  ⟨some "Erin", some "erin", some "erin@x.io", some 7, some false, some "FR"⟩

def rowNullSessions : PersonRow :=
  ⟨some "Ann", some "ann", some "ann@x.io", none, some false, some "US"⟩

def rowNoCountry : PersonRow :=
  ⟨some "Noor", some "noor", some "noor@x.io", some 2, some false, none⟩

def aliceRow : PersonRow :=
  ⟨some "Alice Smith", some "bob99", none, some 2, some false, some "US"⟩

def regexRow : PersonRow :=
  ⟨some "abc", none, none, some 1, some true, none⟩

def sessJan01 : SessionRow :=
  ⟨some false, some false, some false, some false, some false, some "US", some ⟨20240101, 9⟩⟩

def sessJan05 : SessionRow :=
  ⟨some true, some false, some false, some false, some false, some "DE", some ⟨20240105, 14⟩⟩

def sessJan10 : SessionRow :=
  ⟨some false, some true, some false, some false, some false, some "US", some ⟨20240110, 20⟩⟩

def sessNullTs : SessionRow :=
  ⟨some true, some false, some false, some false, some false, some "DE", none⟩

def dynPeople : DynTable :=
  ⟨["businessUser", "country"],
   [[Value.bool true, Value.str "US"], [Value.bool false, Value.null]]⟩

example : filterPeople ⟨"All Users", 0, "All", ""⟩ [rowNullSessions] = [] := by decide

example : searchMask "alice" aliceRow = true := by decide

example : searchMask "a.c" regexRow = true := by decide

example : countries [row5, rowNoCountry, row3, row5] = ["All", "DE", "US"] := by decide

/-! ## The claims -/

/-- C1, counterexample.  The claim says that filtering with the
all-inactive predicate set (user type "All Users", minimum sessions 0,
country "All", empty search) returns every row, including rows with null
values in any column.  It fails: line 102 applies
`total_sessions >= min_sessions` unconditionally, and a null cell fails a
pandas `>=` comparison, so a row with null `total_sessions` is dropped
even though every predicate is inactive. -/
theorem inactive_identity_fails :
    filterPeople inactivePeopleCfg [rowNullSessions] ≠ [rowNullSessions] := by
  decide

/-- C1, amended.  Filtering with the all-inactive predicate set returns
the table unchanged, provided every row's `total_sessions` is a non-null,
non-negative value (so that it passes the always-applied threshold-0
comparison); for the sessions table, the all-inactive configuration is
the identity with no proviso. -/
theorem inactive_identity_amended (T : List PersonRow) (S : List SessionRow)
    (h : ∀ r ∈ T, ∃ n, r.total_sessions = some n ∧ 0 ≤ n) :
    filterPeople inactivePeopleCfg T = T ∧ filterSessions inactiveSessionsCfg S = S := by
  constructor
  · rw [filterPeople_eq_filter, List.filter_eq_self]
    intro a ha
    rw [peopleRowPred_inactive]
    obtain ⟨n, hn, h0⟩ := h a ha
    simp [geMask, hn, h0]
  · rw [filterSessions_eq_filter, List.filter_eq_self]
    intro a _
    rw [sessionRowPred_inactive]

theorem inactive_identity_amended_witness :
    (∀ r ∈ ([row3, row5] : List PersonRow), ∃ n, r.total_sessions = some n ∧ 0 ≤ n) ∧
      filterPeople inactivePeopleCfg [row3, row5] = [row3, row5] ∧
      filterSessions inactiveSessionsCfg [sessJan01, sessNullTs] = [sessJan01, sessNullTs] := by
  have h : ∀ r ∈ ([row3, row5] : List PersonRow), ∃ n, r.total_sessions = some n ∧ 0 ≤ n := by
    intro r hr
    rcases List.mem_cons.mp hr with h1 | hr
    · exact ⟨3, by subst h1; rfl, by decide⟩
    rcases List.mem_cons.mp hr with h1 | hr
    · exact ⟨5, by subst h1; rfl, by decide⟩
    · cases hr
  refine ⟨h, ?_, ?_⟩
  · exact (inactive_identity_amended [row3, row5] [sessJan01, sessNullTs] h).1
  · exact (inactive_identity_amended [row3, row5] [sessJan01, sessNullTs] h).2

/-- C2, counterexample.  The claim reads the search as literal substring
containment.  The code calls `str.contains` with its default
`regex=True`, so the term is interpreted as a regular expression: the
term "a.c" matches the row whose fullName is "abc" (the `.` is a
wildcard), although no designated column contains "a.c" as a literal
substring — the row passes the filter, contradicting the claimed
characterization. -/
theorem search_literal_fails :
    searchMask "a.c" regexRow = true ∧ specLiteralSearch "a.c" regexRow = false ∧
      filterPeople ⟨"All Users", 0, "All", "a.c"⟩ [regexRow] = [regexRow] := by
  decide

/-- C2, amended.  The search term is interpreted as a Python regular
expression (case-insensitively, over the three designated columns, null
cells never matching, OR across the columns).  For terms whose
case-folded form contains no regex metacharacter the claimed
characterization holds verbatim: the row passes iff at least one of
fullName, username, email, case-folded, contains the case-folded term as
a literal substring; a null column never satisfies its own clause; an
empty search term imposes no constraint. -/
theorem search_semantics_amended (term : String) (r : PersonRow)
    (h : ∀ c ∈ pyLower term, reMeta c = false) :
    searchMask term r = specLiteralSearch term r ∧
      pyContains term none = false ∧
      (∀ q : PersonRow, searchGate "" q = true) := by
  refine ⟨?_, rfl, fun q => by unfold searchGate; rw [if_pos rfl]⟩
  unfold searchMask specLiteralSearch
  rw [pyContains_eq_literal term r.fullName h, pyContains_eq_literal term r.username h,
    pyContains_eq_literal term r.email h]

theorem search_semantics_amended_witness :
    (∀ c ∈ pyLower "alice", reMeta c = false) ∧
      searchMask "alice" aliceRow = specLiteralSearch "alice" aliceRow ∧
      searchMask "alice" aliceRow = true := by
  refine ⟨by decide, (search_semantics_amended "alice" aliceRow (by decide)).1, by decide⟩

/-- Helper for the date-range claim: with all other sessions predicates
inactive, the block is exactly the date mask. -/
theorem sessionRowPred_dateOnly (dr : DateSel) (r : SessionRow) :
    sessionRowPred ⟨false, false, false, false, false, "All", dr⟩ r =
      dateMask dr r.start_timestamp := by
  simp [sessionRowPred, checkboxGate, countryMask]

/-- C3.  With both bounds supplied, a row passes the date-range predicate
iff the calendar-date portion of its `start_timestamp` lies in the
inclusive interval; a null timestamp fails; with start > end the
predicate rejects every row (the filter yields the empty set, defined
behavior rather than an error); with the widget variable absent or only
one bound supplied, no constraint is imposed. -/
theorem date_range_semantics :
    (∀ (s e : Int) (ts : Timestamp),
        dateMask (DateSel.full s e) (some ts) =
          (decide (s ≤ ts.date) && decide (ts.date ≤ e))) ∧
    (∀ (s e : Int), dateMask (DateSel.full s e) none = false) ∧
    (∀ (s e : Int) (v : Option Timestamp), e < s → dateMask (DateSel.full s e) v = false) ∧
    (∀ (v : Option Timestamp), dateMask DateSel.absent v = true) ∧
    (∀ (d : Int) (v : Option Timestamp), dateMask (DateSel.half d) v = true) ∧
    (∀ (dr : DateSel) (T : List SessionRow),
        filterSessions ⟨false, false, false, false, false, "All", dr⟩ T =
          T.filter (fun r => dateMask dr r.start_timestamp)) := by
  refine ⟨fun s e ts => rfl, fun s e => rfl, ?_, fun v => rfl, fun d v => rfl, ?_⟩
  · intro s e v h
    rcases v with _ | ts
    · rfl
    · show (decide (s ≤ ts.date) && decide (ts.date ≤ e)) = false
      by_cases h1 : s ≤ ts.date
      · have h2 : ¬ ts.date ≤ e := by omega
        simp [h1, h2]
      · simp [h1]
  · intro dr T
    rw [filterSessions_eq_filter]
    exact List.filter_congr (fun r _ => sessionRowPred_dateOnly dr r)

theorem date_range_semantics_witness :
    ((20240106 : Int) < 20240107 ∧
      dateMask (DateSel.full 20240107 20240106) (some ⟨20240105, 0⟩) = false) ∧
    filterSessions ⟨false, false, false, false, false, "All", DateSel.full 20240102 20240106⟩
        [sessJan01, sessJan05, sessJan10, sessNullTs] = [sessJan05] := by
  constructor
  · exact ⟨by decide, date_range_semantics.2.2.1 20240107 20240106 _ (by decide)⟩
  · rw [date_range_semantics.2.2.2.2.2]
    decide

/-- C4.  The numeric lower-bound predicate on `total_sessions` passes a
row iff the value is non-null and at least the threshold; null fails.  On
the spec's scenario values [3, 5, 7, null] with threshold 5 exactly the
cells 5 and 7 pass; and every row the people filter outputs satisfies
the predicate, because line 102 applies it unconditionally. -/
theorem min_sessions_semantics :
    (∀ (t : Int) (v : Option Int), (geMask t v = true ↔ ∃ n, v = some n ∧ t ≤ n)) ∧
    ([some 3, some 5, some 7, none].filter (geMask 5) = [some 5, some 7]) ∧
    (∀ (cfg : PeopleConfig) (T : List PersonRow) (r : PersonRow),
        r ∈ filterPeople cfg T → geMask cfg.min_sessions r.total_sessions = true) := by
  refine ⟨?_, by decide, ?_⟩
  · intro t v
    cases v with
    | none => simp [geMask]
    | some n => simp [geMask]
  · intro cfg T r hr
    rw [filterPeople_eq_filter] at hr
    have h2 := (List.mem_filter.mp hr).2
    unfold peopleRowPred at h2
    simp only [Bool.and_eq_true] at h2
    exact h2.1.1.2

theorem min_sessions_semantics_witness :
    row5 ∈ filterPeople ⟨"All Users", 5, "All", ""⟩ [row3, row5, row7, rowNullSessions] ∧
      geMask 5 row5.total_sessions = true := by
  have hm : row5 ∈ filterPeople ⟨"All Users", 5, "All", ""⟩ [row3, row5, row7, rowNullSessions] := by
    decide
  exact ⟨hm, min_sessions_semantics.2.2 _ _ _ hm⟩

/-- Predicates named for the order-independence witness. -/
def bizPred : PersonRow → Bool := fun r => r.businessUser == some true

def gePred5 : PersonRow → Bool := fun r => geMask 5 r.total_sessions

def createdPred : SessionRow → Bool := fun r => boolMask r.created_event

def countryDEPred : SessionRow → Bool := fun r => r.country == some "DE"

/-- C5.  Each filter block is a sequential chain of per-row `filter`
steps, each evaluated against the original row's values only; applying
the active predicates in any permutation of the code's order yields the
same result. -/
theorem filter_order_independence (cfgP : PeopleConfig) (TP : List PersonRow)
    (cfgS : SessionsConfig) (TS : List SessionRow)
    (ps : List (PersonRow → Bool)) (qs : List (SessionRow → Bool))
    (hp : (peoplePredList cfgP).Perm ps) (hq : (sessionsPredList cfgS).Perm qs) :
    chainFilter ps TP = filterPeople cfgP TP ∧
      chainFilter qs TS = filterSessions cfgS TS := by
  constructor
  · rw [filterPeople_eq_chain]
    exact (chainFilter_perm hp TP).symm
  · rw [filterSessions_eq_chain]
    exact (chainFilter_perm hq TS).symm

theorem filter_order_independence_witness :
    (peoplePredList ⟨"Business Users", 5, "All", ""⟩).Perm [gePred5, bizPred] ∧
    (sessionsPredList ⟨true, false, false, false, false, "DE", DateSel.absent⟩).Perm
      [countryDEPred, createdPred] ∧
    chainFilter [gePred5, bizPred] [row3, row5, row7, rowNullSessions] =
      filterPeople ⟨"Business Users", 5, "All", ""⟩ [row3, row5, row7, rowNullSessions] ∧
    chainFilter [countryDEPred, createdPred] [sessJan01, sessJan05, sessJan10, sessNullTs] =
      filterSessions ⟨true, false, false, false, false, "DE", DateSel.absent⟩
        [sessJan01, sessJan05, sessJan10, sessNullTs] := by
  have hep : peoplePredList ⟨"Business Users", 5, "All", ""⟩ = [bizPred, gePred5] := by
    unfold peoplePredList userTypePredList condList
    rw [if_pos rfl, if_neg (by decide), if_neg (by decide)]
    rfl
  have heq : sessionsPredList ⟨true, false, false, false, false, "DE", DateSel.absent⟩ =
      [createdPred, countryDEPred] := by
    unfold sessionsPredList datePredList condList
    rw [if_pos rfl, if_neg (by decide), if_neg (by decide), if_neg (by decide),
      if_neg (by decide), if_pos (by decide)]
    rfl
  have hp : (peoplePredList ⟨"Business Users", 5, "All", ""⟩).Perm [gePred5, bizPred] := by
    rw [hep]; exact List.Perm.swap gePred5 bizPred []
  have hq : (sessionsPredList ⟨true, false, false, false, false, "DE", DateSel.absent⟩).Perm
      [countryDEPred, createdPred] := by
    rw [heq]; exact List.Perm.swap countryDEPred createdPred []
  refine ⟨hp, hq, ?_, ?_⟩
  · exact (filter_order_independence ⟨"Business Users", 5, "All", ""⟩
      [row3, row5, row7, rowNullSessions]
      ⟨true, false, false, false, false, "DE", DateSel.absent⟩
      [sessJan01, sessJan05, sessJan10, sessNullTs]
      [gePred5, bizPred] [countryDEPred, createdPred] hp hq).1
  · exact (filter_order_independence ⟨"Business Users", 5, "All", ""⟩
      [row3, row5, row7, rowNullSessions]
      ⟨true, false, false, false, false, "DE", DateSel.absent⟩
      [sessJan01, sessJan05, sessJan10, sessNullTs]
      [gePred5, bizPred] [countryDEPred, createdPred] hp hq).2

/-- C6.  Each filter block returns exactly those input rows for which
every active predicate evaluates true (the inactive ones contributing no
constraint), as a `filter` of the input: the output is a sublist of the
input, hence in the same relative order, with no row duplicated or
added; and the block is a pure function of the input list, which it
leaves unchanged. -/
theorem filter_engine_exact (cfgP : PeopleConfig) (TP : List PersonRow)
    (cfgS : SessionsConfig) (TS : List SessionRow) :
    filterPeople cfgP TP = TP.filter (peopleRowPred cfgP) ∧
      (filterPeople cfgP TP).Sublist TP ∧
      filterSessions cfgS TS = TS.filter (sessionRowPred cfgS) ∧
      (filterSessions cfgS TS).Sublist TS := by
  refine ⟨filterPeople_eq_filter cfgP TP, ?_, filterSessions_eq_filter cfgS TS, ?_⟩
  · rw [filterPeople_eq_filter]
    exact List.filter_sublist TP
  · rw [filterSessions_eq_filter]
    exact List.filter_sublist TS

/-- Helper for the checkbox claim: one conditional checkbox step passes a
row iff, when the box is checked, the row's boolean column is exactly
`true` (a null or `false` cell fails). -/
theorem checkboxGate_eq_true_iff (b : Bool) (v : Option Bool) :
    (checkboxGate b v = true) ↔ (b = true → v = some true) := by
  cases b <;> simp [checkboxGate, boolMask]

/-- C7.  With the country select at its sentinel and no date constraint,
a row is in the sessions filter output iff it is an input row and, for
each of the five event checkboxes that is checked, the corresponding
boolean column equals `true` exactly — null or `false` cells fail — while
an unchecked box imposes no constraint. -/
theorem checkbox_semantics (cfg : SessionsConfig) (S : List SessionRow) (r : SessionRow)
    (hc : cfg.selected_session_country = "All") (hd : cfg.date_range = DateSel.absent) :
    (r ∈ filterSessions cfg S ↔
      r ∈ S ∧ (cfg.show_created = true → r.created_event = some true) ∧
        (cfg.show_viewed = true → r.viewed_event = some true) ∧
        (cfg.show_joined = true → r.joined_event = some true) ∧
        (cfg.show_quiz = true → r.completed_quiz = some true) ∧
        (cfg.show_discovered = true → r.visited_discover = some true)) := by
  rw [filterSessions_eq_filter, List.mem_filter]
  refine and_congr_right (fun _ => ?_)
  unfold sessionRowPred
  rw [hc, hd]
  simp [Bool.and_eq_true, checkboxGate_eq_true_iff, countryMask, dateMask, and_assoc]

theorem checkbox_semantics_witness :
    (⟨true, false, false, false, false, "All", DateSel.absent⟩ :
        SessionsConfig).selected_session_country = "All" ∧
    (sessJan05 ∈ filterSessions ⟨true, false, false, false, false, "All", DateSel.absent⟩
        [sessJan01, sessJan05, sessNullTs] ↔
      sessJan05 ∈ [sessJan01, sessJan05, sessNullTs] ∧
        (true = true → sessJan05.created_event = some true) ∧
        (false = true → sessJan05.viewed_event = some true) ∧
        (false = true → sessJan05.joined_event = some true) ∧
        (false = true → sessJan05.completed_quiz = some true) ∧
        (false = true → sessJan05.visited_discover = some true)) :=
  ⟨rfl, checkbox_semantics ⟨true, false, false, false, false, "All", DateSel.absent⟩
    [sessJan01, sessJan05, sessNullTs] sessJan05 rfl rfl⟩

/-- C8.  If an active predicate references a column absent from the
table's schema, the filter operation fails loudly — the column lookup
raises a `KeyError` before any row is inspected — and never returns a
result table, empty or otherwise. -/
theorem missing_column_fails (t : DynTable) (c : String) (p : Value → Bool)
    (h : c ∉ t.header) :
    filterByCol t c p = Except.error ("KeyError: " ++ c) ∧
      ∀ res : DynTable, filterByCol t c p ≠ Except.ok res := by
  have he : filterByCol t c p = Except.error ("KeyError: " ++ c) := by
    unfold filterByCol
    rw [getCol_missing t c h]
    rfl
  refine ⟨he, fun res hok => ?_⟩
  rw [he] at hok
  cases hok

theorem missing_column_fails_witness :
    "missing" ∉ dynPeople.header ∧
      filterByCol dynPeople "missing" (fun v => v == Value.bool true) =
        Except.error ("KeyError: " ++ "missing") := by
  have h : "missing" ∉ dynPeople.header := by decide
  exact ⟨h, (missing_column_fails dynPeople "missing" (fun v => v == Value.bool true) h).1⟩

/-- C9.  On a column list that is a subset of the schema, projection
succeeds and returns the view whose header is exactly the requested
columns in the requested order and whose rows are the input rows, in
order, each restricted to those columns; in particular the projected row
count equals the input row count. -/
theorem projection_semantics (t : DynTable) (cols : List String)
    (h : ∀ c ∈ cols, c ∈ t.header) :
    project t cols =
        Except.ok ⟨cols, t.rows.map (fun r => cols.map (cellValue t.header r))⟩ ∧
      (t.rows.map (fun r => cols.map (cellValue t.header r))).length = t.rows.length := by
  exact ⟨project_ok t cols h, by simp⟩

theorem projection_semantics_witness :
    (∀ c ∈ ["country", "businessUser"], c ∈ dynPeople.header) ∧
      project dynPeople ["country", "businessUser"] =
        Except.ok ⟨["country", "businessUser"],
          dynPeople.rows.map (fun r =>
            ["country", "businessUser"].map (cellValue dynPeople.header r))⟩ := by
  have h : ∀ c ∈ ["country", "businessUser"], c ∈ dynPeople.header := by decide
  exact ⟨h, (projection_semantics dynPeople ["country", "businessUser"] h).1⟩

/-- C10.  A null-country row fails the equality predicate under every
concrete (non-sentinel) country selection — so in particular it is never
in the people filter output when such a selection is active — and the
dropdown options are exactly the sentinel "All" followed by the distinct
non-null country values in sorted order, so null-country rows are
reachable only through the sentinel choice. -/
theorem country_options_semantics (T : List PersonRow) (sel : String) (r : PersonRow)
    (h1 : sel ≠ "All") (h2 : r.country = none) :
    countryMask sel r.country = false ∧
      (∀ cfg : PeopleConfig, cfg.selected_country = sel → r ∉ filterPeople cfg T) ∧
      (∃ l, countries T = "All" :: l ∧ l.Sorted strLe ∧ l.Nodup ∧
        (∀ x, x ∈ l ↔ some x ∈ T.map (fun q => q.country))) := by
  have hmask : countryMask sel r.country = false := by
    unfold countryMask
    rw [if_neg h1, h2]
    rfl
  refine ⟨hmask, ?_, ?_⟩
  · intro cfg hcfg hmem
    rw [filterPeople_eq_filter] at hmem
    have hp := (List.mem_filter.mp hmem).2
    unfold peopleRowPred at hp
    simp only [Bool.and_eq_true] at hp
    rw [hcfg, hmask] at hp
    cases hp.1.2
  · refine ⟨List.insertionSort strLe (uniqueFirst (T.filterMap (fun q => q.country))),
      ?_, ?_, ?_, ?_⟩
    · rfl
    · exact List.sorted_insertionSort strLe _
    · exact (List.perm_insertionSort strLe _).nodup_iff.mpr
        (nodup_uniqueFirst _)
    · intro x
      rw [List.mem_insertionSort, mem_uniqueFirst, List.mem_filterMap]
      simp [List.mem_map]

theorem country_options_semantics_witness :
    ("DE" : String) ≠ "All" ∧ rowNoCountry.country = none ∧
      countryMask "DE" rowNoCountry.country = false ∧
      rowNoCountry ∉ filterPeople ⟨"All Users", 0, "DE", ""⟩ [row5, rowNoCountry, row3] := by
  have hth := country_options_semantics [row5, rowNoCountry, row3] "DE" rowNoCountry
    (by decide) rfl
  exact ⟨by decide, rfl, hth.1, hth.2.1 ⟨"All Users", 0, "DE", ""⟩ rfl⟩
